import Mathlib

/-!
Shallow embedding of the syojctl credential store, SYOJ API client and the
two authenticated commands (Go sources: credentials/manager.go,
api/client.go, cmd/show_problem.go, cmd/submit.go), together with proofs
about the behaviour the specification claims.

Modelling conventions:
* Go strings are Lean Strings (opaque text, never parsed by the program).
* JSON documents are the inductive Json below; the field handling of Go
  encoding/json Unmarshal is reproduced key by key: unknown keys are
  ignored, a JSON null leaves the target field untouched, a present key of
  the wrong shape is a decode error, and a later duplicate key overwrites
  an earlier one.  Integral JSON numbers are modelled as Int; the
  case-insensitive key fallback of encoding/json is not exercised by any
  claim and is not modelled.
* The filesystem seen by the credential store is the state of the single
  configuration file: absent, unparseable bytes, or a JSON document.
* The HTTP transport is external: each client operation is split into the
  request value it constructs and a pure handler of the status, body and
  cookie-jar data of the response.
-/

namespace Syoj

/-- JSON values (integral numbers only, which is all the SYOJ API uses). -/
inductive Json where
  | null
  | bool (b : Bool)
  | num (n : Int)
  | str (s : String)
  | arr (elems : List Json)
  | obj (fields : List (String × Json))

/-- Unmarshal the field list of a JSON object into a value, Go style: every
key is interpreted by step as an update of the value being built, and a key
whose payload has the wrong shape fails the whole decode. -/
def decodeFieldsWith {α : Type} (step : String → Json → Option (α → α)) (acc : α) :
    List (String × Json) → Option α
  | [] => some acc
  | kv :: rest =>
    match step kv.1 kv.2 with
    | some f => decodeFieldsWith step (f acc) rest
    | none => none

/-- Go struct credentials.Credentials: fields Token and TokenId with JSON
tags token and token_id (credentials/manager.go). -/
structure Credentials where
  Token : String
  TokenId : String
  deriving Repr, DecidableEq

/-- json.Marshal of a Credentials value: the two tagged fields in struct
order. -/
def credsToJson (c : Credentials) : Json :=
  Json.obj [("token", Json.str c.Token), ("token_id", Json.str c.TokenId)]

/-- Unmarshal handling of one key of the credentials object. -/
def decodeCredsField (k : String) (v : Json) : Option (Credentials → Credentials) :=
  if k = "token" then
    match v with
    | Json.null => some id
    | Json.str s => some (fun c => ⟨s, c.TokenId⟩)
    | _ => none
  else if k = "token_id" then
    match v with
    | Json.null => some id
    | Json.str s => some (fun c => ⟨c.Token, s⟩)
    | _ => none
  else some id

/-- json.Unmarshal of a JSON document into credentials.Credentials: a null
document is a no-op on the zero struct, an object is decoded field by field,
anything else is an error. -/
def decodeCredentials : Json → Option Credentials
  | Json.null => some ⟨"", ""⟩
  | Json.obj kvs => decodeFieldsWith decodeCredsField ⟨"", ""⟩ kvs
  | _ => none

/-- Contents of the syojctl/credentials.json configuration file: either bytes
that are not valid JSON, or a JSON document. -/
inductive FileContent where
  | malformed
  | json (j : Json)

/-- State of the configuration file location searched by the store. -/
inductive FileState where
  | absent
  | content (fc : FileContent)

/-- Failures of the Load operation: the xdg search finding no file, or
json.Unmarshal rejecting the file contents. Operating-system I/O failures
are outside the model. -/
inductive LoadError where
  | notFound
  | parseError
  deriving Repr, DecidableEq

/-- Credentials.Save (credentials/manager.go lines 17-32): marshals the
record and overwrites the configuration file unconditionally; the previous
state of the file is irrelevant. -/
def Credentials.Save (c : Credentials) (_prev : FileState) : FileState :=
  FileState.content (FileContent.json (credsToJson c))

/-- Load (credentials/manager.go lines 35-56): search for the configuration
file, read it, and unmarshal the bytes into a Credentials value. -/
def Load (fs : FileState) : Except LoadError Credentials :=
  match fs with
  | FileState.absent => Except.error LoadError.notFound
  | FileState.content fc =>
    match fc with
    | FileContent.malformed => Except.error LoadError.parseError
    | FileContent.json j =>
      match decodeCredentials j with
      | some c => Except.ok c
      | none => Except.error LoadError.parseError

/-- C1: saving a credential record whose two fields are non-empty and then
loading yields a record equal to the saved one in both fields. -/
theorem c1_save_load_roundtrip (c : Credentials) (prev : FileState)
    (_ht : c.Token ≠ "") (_hi : c.TokenId ≠ "") :
    Load (Credentials.Save c prev) = Except.ok c := rfl

/-- C1 witness: the round trip evaluated on a concrete record. -/
theorem c1_save_load_roundtrip_witness :
    Load (Credentials.Save ⟨"a", "b"⟩ FileState.absent) = Except.ok ⟨"a", "b"⟩ :=
  c1_save_load_roundtrip ⟨"a", "b"⟩ FileState.absent (by decide) (by decide)

/-- Helper: if every key of an object field list decodes, the whole list
decodes, and a component (observed through g) whose key never occurs keeps
the value it has in the start accumulator. -/
theorem decodeFieldsWith_ok {α β : Type} (step : String → Json → Option (α → α))
    (g : α → β) (key : String)
    (hpres : ∀ k v f, step k v = some f → k ≠ key → ∀ a, g (f a) = g a) :
    ∀ kvs : List (String × Json), (∀ kv ∈ kvs, (step kv.1 kv.2).isSome = true) →
      ∀ acc : α, ∃ p, decodeFieldsWith step acc kvs = some p ∧
        (key ∉ kvs.map Prod.fst → g p = g acc) := by
  intro kvs
  induction kvs with
  | nil =>
    intro _ acc
    exact ⟨acc, rfl, fun _ => rfl⟩
  | cons kv rest ih =>
    intro hok acc
    have hkv : (step kv.1 kv.2).isSome = true := hok kv (List.mem_cons_self kv rest)
    obtain ⟨f, hf⟩ := Option.isSome_iff_exists.mp hkv
    obtain ⟨p, hp, hkey⟩ := ih (fun x hx => hok x (List.mem_cons_of_mem kv hx)) (f acc)
    refine ⟨p, ?_, ?_⟩
    · simpa [decodeFieldsWith, hf] using hp
    · intro hnot
      have h1 : kv.1 ≠ key := by
        intro he
        exact hnot (by simp [he])
      have h2 : key ∉ rest.map Prod.fst := by
        intro hm
        exact hnot (by simp [hm])
      rw [hkey h2, hpres kv.1 kv.2 f hf h1 acc]

/-- Helper: a key other than token never changes the Token component. -/
theorem decodeCredsField_keepToken (k : String) (v : Json) (f : Credentials → Credentials)
    (hf : decodeCredsField k v = some f) (hk : k ≠ "token") (c : Credentials) :
    (f c).Token = c.Token := by
  unfold decodeCredsField at hf
  rw [if_neg hk] at hf
  by_cases h2 : k = "token_id"
  · rw [if_pos h2] at hf
    cases v <;> first
      | (injection hf with h; subst h; rfl)
      | exact Option.noConfusion hf
  · rw [if_neg h2] at hf
    injection hf with h
    subst h
    rfl

/-- Helper: a key other than token_id never changes the TokenId component. -/
theorem decodeCredsField_keepTokenId (k : String) (v : Json) (f : Credentials → Credentials)
    (hf : decodeCredsField k v = some f) (hk : k ≠ "token_id") (c : Credentials) :
    (f c).TokenId = c.TokenId := by
  unfold decodeCredsField at hf
  by_cases h1 : k = "token"
  · rw [if_pos h1] at hf
    cases v <;> first
      | (injection hf with h; subst h; rfl)
      | exact Option.noConfusion hf
  · rw [if_neg h1, if_neg hk] at hf
    injection hf with h
    subst h
    rfl

/-- Unmarshal result of a configuration file content, as Load applies it. -/
def contentDecodes : FileContent → Option Credentials
  | FileContent.malformed => none
  | FileContent.json j => decodeCredentials j

/-- Shape the spec calls the expected structured format of the configuration
file, following its words: a JSON object carrying the two string fields. -/
def isJsonStr : Json → Bool
  | Json.str _ => true
  | _ => false

/-- Following the words of the spec and claim: content matching a JSON object
with the two string fields. -/
def specExpectedFormat : FileContent → Bool
  | FileContent.json (Json.obj kvs) =>
    (kvs.any fun kv => kv.1 == "token" && isJsonStr kv.2) &&
      (kvs.any fun kv => kv.1 == "token_id" && isJsonStr kv.2)
  | _ => false

/-- C8 counterexample: the empty JSON object does not match the expected
two-string-field format, yet Load succeeds on it with two empty fields
instead of failing with a parse error. -/
theorem c8_counterexample :
    specExpectedFormat (FileContent.json (Json.obj [])) = false ∧
    Load (FileState.content (FileContent.json (Json.obj []))) = Except.ok ⟨"", ""⟩ :=
  ⟨rfl, rfl⟩

/-- C8 (amended): Load fails with NotFoundError exactly when no file exists in
the search path, and with ParseError exactly when the file content does not
unmarshal into the record (invalid JSON, a top level that is neither an object
nor null, or a present token or token_id key of non-string shape); a JSON
object in which the two keys decode but are merely missing loads successfully
with the missing fields equal to the empty string. -/
theorem c8_load_errors (fs : FileState) :
    (Load fs = Except.error LoadError.notFound ↔ fs = FileState.absent) ∧
    (Load fs = Except.error LoadError.parseError ↔
      ∃ fc, fs = FileState.content fc ∧ contentDecodes fc = none) ∧
    (∀ kvs : List (String × Json),
      (∀ kv ∈ kvs, (decodeCredsField kv.1 kv.2).isSome = true) →
      ∃ c, Load (FileState.content (FileContent.json (Json.obj kvs))) = Except.ok c ∧
        ("token" ∉ kvs.map Prod.fst → c.Token = "") ∧
        ("token_id" ∉ kvs.map Prod.fst → c.TokenId = "")) := by
  refine ⟨?_, ?_, ?_⟩
  · cases fs with
    | absent => simp [Load]
    | content fc =>
      cases fc with
      | malformed => simp [Load]
      | json j =>
        cases hd : decodeCredentials j <;> simp [Load, hd]
  · cases fs with
    | absent => simp [Load]
    | content fc =>
      cases fc with
      | malformed => simp [Load, contentDecodes]
      | json j =>
        cases hd : decodeCredentials j <;> simp [Load, contentDecodes, hd]
  · intro kvs hok
    obtain ⟨c₁, h₁, hT⟩ := decodeFieldsWith_ok decodeCredsField Credentials.Token "token"
      decodeCredsField_keepToken kvs hok ⟨"", ""⟩
    obtain ⟨c₂, h₂, hI⟩ := decodeFieldsWith_ok decodeCredsField Credentials.TokenId "token_id"
      decodeCredsField_keepTokenId kvs hok ⟨"", ""⟩
    have hcc : c₁ = c₂ := by
      have := h₁.symm.trans h₂
      exact Option.some.inj this
    subst hcc
    refine ⟨c₁, ?_, hT, hI⟩
    simp [Load, decodeCredentials, h₁]

/-- C8 amended witness: a JSON object with a single unrelated key loads as the
all-empty record. -/
theorem c8_load_errors_witness :
    ∃ c, Load (FileState.content (FileContent.json (Json.obj [("x", Json.num 1)]))) =
        Except.ok c ∧
      ("token" ∉ ([("x", Json.num 1)] : List (String × Json)).map Prod.fst → c.Token = "") ∧
      ("token_id" ∉ ([("x", Json.num 1)] : List (String × Json)).map Prod.fst →
        c.TokenId = "") :=
  (c8_load_errors FileState.absent).2.2 [("x", Json.num 1)] (by decide)

/-- Unmarshal handling of one key of the login response object (Go struct
api.LoginResponse, single field Message tagged message). -/
def decodeLoginField (k : String) (v : Json) : Option (String → String) :=
  if k = "message" then
    match v with
    | Json.null => some id
    | Json.str s => some (fun _ => s)
    | _ => none
  else some id

/-- json.Unmarshal of a login response body into api.LoginResponse, keeping
its one field. -/
def decodeLoginResponse : Json → Option String
  | Json.null => some ""
  | Json.obj kvs => decodeFieldsWith decodeLoginField "" kvs
  | _ => none

/-- Message obtained from the raw response body: unparseable bytes fail the
unmarshal. -/
def bodyMessage : FileContent → Option String
  | FileContent.malformed => none
  | FileContent.json j => decodeLoginResponse j

/-- Body of the cookie-extraction loop in Client.Login (api/client.go lines
214-222): a cookie named Token or TokenId overwrites the matching field. -/
def cookieStep (creds : Credentials) (ck : String × String) : Credentials :=
  if ck.1 = "Token" then ⟨ck.2, creds.TokenId⟩
  else if ck.1 = "TokenId" then ⟨creds.Token, ck.2⟩
  else creds

/-- Cookie extraction of Client.Login: fold the loop body over the cookies
the jar returns for the base URL, starting from the zero record. -/
def extractCredentials (cookies : List (String × String)) : Credentials :=
  cookies.foldl cookieStep ⟨"", ""⟩

/-- Value of the last cookie with the given name, if any. -/
def jarLast (name : String) : List (String × String) → Option String
  | [] => none
  | kv :: rest =>
    match jarLast name rest with
    | some v => some v
    | none => if kv.1 = name then some kv.2 else none

/-- Helper: the Token component written by one loop step. -/
theorem cookieStep_token (acc : Credentials) (ck : String × String) :
    (cookieStep acc ck).Token = if ck.1 = "Token" then ck.2 else acc.Token := by
  unfold cookieStep
  by_cases h1 : ck.1 = "Token"
  · simp [h1]
  · by_cases h2 : ck.1 = "TokenId" <;> simp [h1, h2]

/-- Helper: the TokenId component written by one loop step. -/
theorem cookieStep_tokenId (acc : Credentials) (ck : String × String) :
    (cookieStep acc ck).TokenId = if ck.1 = "TokenId" then ck.2 else acc.TokenId := by
  unfold cookieStep
  by_cases h1 : ck.1 = "Token"
  · have h2 : ck.1 ≠ "TokenId" := by rw [h1]; decide
    simp [h1, h2]
  · by_cases h2 : ck.1 = "TokenId" <;> simp [h1, h2]

/-- Helper: unfolding equation of jarLast on a cons cell. -/
theorem jarLast_cons (name : String) (kv : String × String) (rest : List (String × String)) :
    jarLast name (kv :: rest) =
      match jarLast name rest with
      | some v => some v
      | none => if kv.1 = name then some kv.2 else none := rfl

/-- Helper: the fold keeps the last Token cookie seen, else the start value. -/
theorem foldl_cookieStep_token (jar : List (String × String)) :
    ∀ acc : Credentials,
      (jar.foldl cookieStep acc).Token = (jarLast "Token" jar).getD acc.Token := by
  induction jar with
  | nil => intro acc; rfl
  | cons kv rest ih =>
    intro acc
    rw [List.foldl_cons, ih, jarLast_cons]
    cases hT : jarLast "Token" rest with
    | some v => rfl
    | none =>
      rw [cookieStep_token]
      by_cases h1 : kv.1 = "Token" <;> simp [h1]

/-- Helper: the fold keeps the last TokenId cookie seen, else the start
value. -/
theorem foldl_cookieStep_tokenId (jar : List (String × String)) :
    ∀ acc : Credentials,
      (jar.foldl cookieStep acc).TokenId = (jarLast "TokenId" jar).getD acc.TokenId := by
  induction jar with
  | nil => intro acc; rfl
  | cons kv rest ih =>
    intro acc
    rw [List.foldl_cons, ih, jarLast_cons]
    cases hT : jarLast "TokenId" rest with
    | some v => rfl
    | none =>
      rw [cookieStep_tokenId]
      by_cases h1 : kv.1 = "TokenId" <;> simp [h1]

/-- Helper: the extraction loop returns exactly the last Token and TokenId
cookie values, or the empty string when a name never occurs. -/
theorem extractCredentials_spec (jar : List (String × String)) :
    extractCredentials jar =
      ⟨(jarLast "Token" jar).getD "", (jarLast "TokenId" jar).getD ""⟩ :=
  congrArg₂ Credentials.mk (foldl_cookieStep_token jar ⟨"", ""⟩)
    (foldl_cookieStep_tokenId jar ⟨"", ""⟩)

/-- Failures of Client.Login: the body not unmarshalling, or the formatted
login-failed error carrying the status code and the response message. -/
inductive LoginError where
  | parseError
  | authError (status : Nat) (message : String)
  deriving Repr, DecidableEq

/-- Client.Login response handling (api/client.go lines 186-228): the body is
read and unmarshalled first; the operation succeeds exactly when the status
is 200 and the message is the fixed literal, in which case the cookies the
jar holds for the base URL are folded into a new credential record; any other
status and message combination is the formatted failure carrying both. The
transport and request construction are external to the model. -/
def Login (status : Nat) (body : FileContent) (jar : List (String × String)) :
    Except LoginError Credentials :=
  match bodyMessage body with
  | none => Except.error LoginError.parseError
  | some msg =>
    if status = 200 ∧ msg = "Successfully logged in" then
      Except.ok (extractCredentials jar)
    else Except.error (LoginError.authError status msg)

/-- Helper: unfolding of Login once the body message is known. -/
theorem Login_msg (status : Nat) (body : FileContent) (jar : List (String × String))
    (msg : String) (h : bodyMessage body = some msg) :
    Login status body jar =
      if status = 200 ∧ msg = "Successfully logged in" then
        Except.ok (extractCredentials jar)
      else Except.error (LoginError.authError status msg) := by
  unfold Login
  rw [h]

/-- Helper: unfolding of Login when the body does not unmarshal. -/
theorem Login_noMsg (status : Nat) (body : FileContent) (jar : List (String × String))
    (h : bodyMessage body = none) :
    Login status body jar = Except.error LoginError.parseError := by
  unfold Login
  rw [h]

/-- C2: Login succeeds exactly when the status is 200 and the message field
of the body equals the literal Successfully logged in; for any other status
and message combination it returns the auth failure carrying both the status
and the message. -/
theorem c2_login_success_iff (status : Nat) (body : FileContent)
    (jar : List (String × String)) :
    ((∃ c, Login status body jar = Except.ok c) ↔
      (status = 200 ∧ bodyMessage body = some "Successfully logged in")) ∧
    (∀ msg, bodyMessage body = some msg →
      ¬(status = 200 ∧ msg = "Successfully logged in") →
      Login status body jar = Except.error (LoginError.authError status msg)) := by
  constructor
  · constructor
    · rintro ⟨c, hc⟩
      cases hb : bodyMessage body with
      | none =>
        rw [Login_noMsg status body jar hb] at hc
        exact absurd hc (by simp)
      | some msg =>
        rw [Login_msg status body jar msg hb] at hc
        by_cases hcond : status = 200 ∧ msg = "Successfully logged in"
        · exact ⟨hcond.1, by rw [hcond.2]⟩
        · rw [if_neg hcond] at hc
          exact absurd hc (by simp)
    · rintro ⟨h200, hmsg⟩
      exact ⟨extractCredentials jar,
        by rw [Login_msg status body jar _ hmsg, if_pos ⟨h200, rfl⟩]⟩
  · intro msg hmsg hne
    rw [Login_msg status body jar msg hmsg, if_neg hne]

/-- C2 witness: a 200 response with a different message is the auth failure
carrying status 200 and that message. -/
theorem c2_login_success_iff_witness :
    Login 200 (FileContent.json (Json.obj [("message", Json.str "Invalid credentials")])) [] =
      Except.error (LoginError.authError 200 "Invalid credentials") :=
  (c2_login_success_iff 200
      (FileContent.json (Json.obj [("message", Json.str "Invalid credentials")])) []).2
    "Invalid credentials" rfl (by decide)

/-- C5: on a successful login response the returned record holds exactly the
values of the last Token and TokenId cookies in the jar for the base address,
and a cookie the server never set leaves the matching field empty without
making the operation fail. -/
theorem c5_success_cookie_extraction (body : FileContent) (jar : List (String × String))
    (h : bodyMessage body = some "Successfully logged in") :
    Login 200 body jar =
      Except.ok ⟨(jarLast "Token" jar).getD "", (jarLast "TokenId" jar).getD ""⟩ := by
  rw [Login_msg 200 body jar _ h, if_pos ⟨rfl, rfl⟩, extractCredentials_spec]

/-- C5 witness: success with an empty cookie jar returns the record with two
empty fields and no error. -/
theorem c5_success_cookie_extraction_witness :
    Login 200 (FileContent.json (Json.obj [("message", Json.str "Successfully logged in")]))
        [] =
      Except.ok ⟨"", ""⟩ :=
  c5_success_cookie_extraction
    (FileContent.json (Json.obj [("message", Json.str "Successfully logged in")])) [] rfl

/-- An outbound HTTP request as the transport sees it: method, full URL, the
explicit headers set on it, the cookies the jar attaches at the base address,
and the key-value payload of the JSON body (empty for GET). -/
structure HttpRequest where
  method : String
  url : String
  headers : List (String × String)
  cookies : List (String × String)
  bodyFields : List (String × String)
  deriving Repr, DecidableEq

/-- State of an api.Client: the fixed base URL, the cookie jar contents for
that address, and the stored token fields (api/client.go lines 17-24). The
30-second timeout and the stderr logger are I/O configuration with no
bearing on any claim. -/
structure ClientState where
  baseURL : String
  jar : List (String × String)
  token : String
  tokenId : String
  deriving Repr, DecidableEq

/-- NewClient (api/client.go lines 99-123): fresh client with an empty cookie
jar and the fixed base URL. -/
def NewClient : ClientState := ⟨"https://syoj.org", [], "", ""⟩

/-- NewClientWithCredentials (api/client.go lines 126-150): NewClient, then
the two fields are stored and the cookies named Token and TokenId with the
given values are set on the jar for the base URL. -/
def NewClientWithCredentials (token tokenId : String) : ClientState :=
  ⟨NewClient.baseURL, NewClient.jar ++ [("Token", token), ("TokenId", tokenId)],
    token, tokenId⟩

/-- Request constructed by Client.GetProblem (api/client.go lines 232-248):
GET on the raw concatenation of base URL, the fixed path and the identifier,
no body; the transport attaches the jar cookies. -/
def GetProblemRequest (c : ClientState) (problemID : String) : HttpRequest :=
  ⟨"GET", c.baseURL ++ "/api/problems/" ++ problemID,
    [("User-Agent", "syojctl/1.0")], c.jar, []⟩

/-- Modelled from the spec: Client.SubmitCode is called from cmd/submit.go
but its body is not among the provided source files. Per the spec (component
design 4.2 operation 3 and the endpoint table) it sends an authenticated POST
to the submit endpoint whose body carries code, language and problem
identifier, with the jar cookies attached like every client request. -/
def SubmitCodeRequest (c : ClientState) (code language problemID : String) : HttpRequest :=
  ⟨"POST", c.baseURL ++ "/api/submit", [("User-Agent", "syojctl/1.0")], c.jar,
    [("code", code), ("language", language), ("problemId", problemID)]⟩

/-- Calls a single client value can be asked to perform after construction. -/
inductive ApiCall where
  | fetch (problemID : String)
  | submitCall (code language problemID : String)

/-- Request issued by a client for one call. -/
def requestOf (c : ClientState) : ApiCall → HttpRequest
  | ApiCall.fetch pid => GetProblemRequest c pid
  | ApiCall.submitCall code lang pid => SubmitCodeRequest c code lang pid

/-- C4: every request issued from a client constructed from a credential
record carries exactly the two cookies Token and TokenId with the record
values, however many requests are issued from that client. -/
theorem c4_cookie_seeding (token tokenId : String) (calls : List ApiCall)
    (r : HttpRequest)
    (h : r ∈ calls.map (requestOf (NewClientWithCredentials token tokenId))) :
    r.cookies = [("Token", token), ("TokenId", tokenId)] := by
  obtain ⟨call, _, rfl⟩ := List.mem_map.mp h
  cases call <;> rfl

/-- C4 witness: a fetch and a submit issued from the same client both carry
the seeded cookies. -/
theorem c4_cookie_seeding_witness :
    (GetProblemRequest (NewClientWithCredentials "t" "i") "I001").cookies =
      [("Token", "t"), ("TokenId", "i")] :=
  c4_cookie_seeding "t" "i" [ApiCall.fetch "I001"]
    (GetProblemRequest (NewClientWithCredentials "t" "i") "I001")
    (List.mem_map.mpr ⟨ApiCall.fetch "I001", List.mem_singleton.mpr rfl, rfl⟩)

/-- C10: the fetch URL is the base address, the fixed path segment and the
identifier concatenated verbatim, with no escaping or validation of the
identifier. -/
theorem c10_url_verbatim (token tokenId problemID : String) :
    (GetProblemRequest (NewClientWithCredentials token tokenId) problemID).url =
      "https://syoj.org" ++ "/api/problems/" ++ problemID := rfl

/-- Go struct api.Tag (api/client.go lines 61-64). -/
structure Tag where
  ID : Int
  Name : String
  deriving Repr, DecidableEq

/-- Go struct api.Language (api/client.go lines 67-72). -/
structure Language where
  ID : Int
  Name : String
  Value : String
  Highlight : String
  deriving Repr, DecidableEq

/-- Go struct api.Author (api/client.go lines 75-77). -/
structure Author where
  DisplayName : String
  deriving Repr, DecidableEq

/-- Go struct api.TestCase (api/client.go lines 85-88). -/
structure TestCase where
  Input : String
  Output : String
  deriving Repr, DecidableEq

/-- Go struct api.TestCaseGroup (api/client.go lines 80-82). -/
structure TestCaseGroup where
  TestCases : List TestCase
  deriving Repr, DecidableEq

/-- Go struct api.Section (api/client.go lines 91-96). -/
structure Section where
  ID : Int
  Title : String
  Content : String
  Order : Int
  deriving Repr, DecidableEq

/-- Go struct api.Problem (api/client.go lines 44-58), with the JSON tags of
the source. -/
structure Problem where
  ID : String
  Title : String
  Description : String
  Difficulty : String
  MemoryLimit : Int
  TimeLimit : Int
  Notes : String
  Tags : List Tag
  AllowedLanguages : List Language
  Author : Author
  TestCases : List TestCaseGroup
  ProblemSection : List Section
  AllowSubmit : Bool
  deriving Repr, DecidableEq

/-- Zero value of api.Problem, the struct json.Unmarshal starts from. -/
def zeroProblem : Problem :=
  ⟨"", "", "", "", 0, 0, "", [], [], ⟨""⟩, [], [], false⟩

/-- Unmarshal a JSON array into a list, Go style: null gives the nil slice. -/
def decodeList {α : Type} (d : Json → Option α) : Json → Option (List α)
  | Json.null => some []
  | Json.arr xs => xs.mapM d
  | _ => none

/-- Unmarshal handling of one key of a tag object. -/
def decodeTagField (k : String) (v : Json) : Option (Tag → Tag) :=
  if k = "id" then
    match v with
    | Json.null => some id
    | Json.num n => some (fun t => ⟨n, t.Name⟩)
    | _ => none
  else if k = "name" then
    match v with
    | Json.null => some id
    | Json.str s => some (fun t => ⟨t.ID, s⟩)
    | _ => none
  else some id

/-- json.Unmarshal into api.Tag. -/
def decodeTag : Json → Option Tag
  | Json.null => some ⟨0, ""⟩
  | Json.obj kvs => decodeFieldsWith decodeTagField ⟨0, ""⟩ kvs
  | _ => none

/-- Unmarshal handling of one key of a language object. -/
def decodeLanguageField (k : String) (v : Json) : Option (Language → Language) :=
  if k = "id" then
    match v with
    | Json.null => some id
    | Json.num n => some (fun l => ⟨n, l.Name, l.Value, l.Highlight⟩)
    | _ => none
  else if k = "name" then
    match v with
    | Json.null => some id
    | Json.str s => some (fun l => ⟨l.ID, s, l.Value, l.Highlight⟩)
    | _ => none
  else if k = "value" then
    match v with
    | Json.null => some id
    | Json.str s => some (fun l => ⟨l.ID, l.Name, s, l.Highlight⟩)
    | _ => none
  else if k = "highlight" then
    match v with
    | Json.null => some id
    | Json.str s => some (fun l => ⟨l.ID, l.Name, l.Value, s⟩)
    | _ => none
  else some id

/-- json.Unmarshal into api.Language. -/
def decodeLanguage : Json → Option Language
  | Json.null => some ⟨0, "", "", ""⟩
  | Json.obj kvs => decodeFieldsWith decodeLanguageField ⟨0, "", "", ""⟩ kvs
  | _ => none

/-- Unmarshal handling of one key of an author object. -/
def decodeAuthorField (k : String) (v : Json) : Option (Author → Author) :=
  if k = "displayName" then
    match v with
    | Json.null => some id
    | Json.str s => some (fun _ => ⟨s⟩)
    | _ => none
  else some id

/-- json.Unmarshal into api.Author. -/
def decodeAuthor : Json → Option Author
  | Json.null => some ⟨""⟩
  | Json.obj kvs => decodeFieldsWith decodeAuthorField ⟨""⟩ kvs
  | _ => none

/-- Unmarshal handling of one key of a test-case object. -/
def decodeTestCaseField (k : String) (v : Json) : Option (TestCase → TestCase) :=
  if k = "input" then
    match v with
    | Json.null => some id
    | Json.str s => some (fun t => ⟨s, t.Output⟩)
    | _ => none
  else if k = "output" then
    match v with
    | Json.null => some id
    | Json.str s => some (fun t => ⟨t.Input, s⟩)
    | _ => none
  else some id

/-- json.Unmarshal into api.TestCase. -/
def decodeTestCase : Json → Option TestCase
  | Json.null => some ⟨"", ""⟩
  | Json.obj kvs => decodeFieldsWith decodeTestCaseField ⟨"", ""⟩ kvs
  | _ => none

/-- Unmarshal handling of one key of a test-case-group object. -/
def decodeTestCaseGroupField (k : String) (v : Json) :
    Option (TestCaseGroup → TestCaseGroup) :=
  if k = "testCases" then
    match decodeList decodeTestCase v with
    | some xs => some (fun _ => ⟨xs⟩)
    | none => none
  else some id

/-- json.Unmarshal into api.TestCaseGroup. -/
def decodeTestCaseGroup : Json → Option TestCaseGroup
  | Json.null => some ⟨[]⟩
  | Json.obj kvs => decodeFieldsWith decodeTestCaseGroupField ⟨[]⟩ kvs
  | _ => none

/-- Unmarshal handling of one key of a section object. -/
def decodeSectionField (k : String) (v : Json) : Option (Section → Section) :=
  if k = "id" then
    match v with
    | Json.null => some id
    | Json.num n => some (fun s => ⟨n, s.Title, s.Content, s.Order⟩)
    | _ => none
  else if k = "title" then
    match v with
    | Json.null => some id
    | Json.str t => some (fun s => ⟨s.ID, t, s.Content, s.Order⟩)
    | _ => none
  else if k = "content" then
    match v with
    | Json.null => some id
    | Json.str t => some (fun s => ⟨s.ID, s.Title, t, s.Order⟩)
    | _ => none
  else if k = "order" then
    match v with
    | Json.null => some id
    | Json.num n => some (fun s => ⟨s.ID, s.Title, s.Content, n⟩)
    | _ => none
  else some id

/-- json.Unmarshal into api.Section. -/
def decodeSection : Json → Option Section
  | Json.null => some ⟨0, "", "", 0⟩
  | Json.obj kvs => decodeFieldsWith decodeSectionField ⟨0, "", "", 0⟩ kvs
  | _ => none

/-- Update of a string field of the problem from one JSON payload: null is a
no-op, a string writes the field, anything else is a decode error. -/
def updStr (v : Json) (set : String → Problem → Problem) : Option (Problem → Problem) :=
  match v with
  | Json.null => some id
  | Json.str s => some (set s)
  | _ => none

/-- Update of an integer field of the problem from one JSON payload. -/
def updInt (v : Json) (set : Int → Problem → Problem) : Option (Problem → Problem) :=
  match v with
  | Json.null => some id
  | Json.num n => some (set n)
  | _ => none

/-- Update of a boolean field of the problem from one JSON payload. -/
def updBool (v : Json) (set : Bool → Problem → Problem) : Option (Problem → Problem) :=
  match v with
  | Json.null => some id
  | Json.bool b => some (set b)
  | _ => none

/-- Update of a slice field of the problem from one JSON payload: null sets
the nil slice, an array decodes elementwise. -/
def updList {α : Type} (d : Json → Option α) (v : Json)
    (set : List α → Problem → Problem) : Option (Problem → Problem) :=
  match v with
  | Json.null => some (set [])
  | Json.arr xs => Option.map set (xs.mapM d)
  | _ => none

/-- Update of a nested struct field of the problem from one JSON payload:
null is a no-op, otherwise the nested decoder runs. -/
def updObj {α : Type} (d : Json → Option α) (v : Json)
    (set : α → Problem → Problem) : Option (Problem → Problem) :=
  match v with
  | Json.null => some id
  | _ => Option.map set (d v)

/-- Unmarshal handling of one key of the problem object, by the JSON tags of
api.Problem; an unknown key is ignored. -/
def decodeProblemField (k : String) (v : Json) : Option (Problem → Problem) :=
  if k = "id" then updStr v (fun s p => { p with ID := s })
  else if k = "title" then updStr v (fun s p => { p with Title := s })
  else if k = "description" then updStr v (fun s p => { p with Description := s })
  else if k = "difficulty" then updStr v (fun s p => { p with Difficulty := s })
  else if k = "memoryLimit" then updInt v (fun n p => { p with MemoryLimit := n })
  else if k = "timeLimit" then updInt v (fun n p => { p with TimeLimit := n })
  else if k = "notes" then updStr v (fun s p => { p with Notes := s })
  else if k = "tags" then updList decodeTag v (fun xs p => { p with Tags := xs })
  else if k = "allowedLanguages" then
    updList decodeLanguage v (fun xs p => { p with AllowedLanguages := xs })
  else if k = "author" then updObj decodeAuthor v (fun a p => { p with Author := a })
  else if k = "testCases" then
    updList decodeTestCaseGroup v (fun xs p => { p with TestCases := xs })
  else if k = "ProblemSection" then
    updList decodeSection v (fun xs p => { p with ProblemSection := xs })
  else if k = "allowSubmit" then updBool v (fun b p => { p with AllowSubmit := b })
  else some id

/-- json.Unmarshal of a 200 response body into api.Problem. -/
def decodeProblem : Json → Option Problem
  | Json.null => some zeroProblem
  | Json.obj kvs => decodeFieldsWith decodeProblemField zeroProblem kvs
  | _ => none

/-- Failures of Client.GetProblem: the formatted non-200 failure carrying the
status code, or the body not unmarshalling. -/
inductive FetchError where
  | httpError (status : Nat)
  | parseError
  deriving Repr, DecidableEq

/-- Client.GetProblem response handling (api/client.go lines 252-274): any
non-200 status fails immediately with the status code, before the body is
read; a 200 body is read and unmarshalled into a problem. -/
def GetProblemHandle (status : Nat) (body : FileContent) : Except FetchError Problem :=
  if status ≠ 200 then Except.error (FetchError.httpError status)
  else
    match body with
    | FileContent.malformed => Except.error FetchError.parseError
    | FileContent.json j =>
      match decodeProblem j with
      | some p => Except.ok p
      | none => Except.error FetchError.parseError

/-- C6: a non-200 response fails with an error carrying exactly that status
code, and the result does not depend on the response body, which is never
read. -/
theorem c6_non200_carries_status (status : Nat) (b b' : FileContent)
    (h : status ≠ 200) :
    GetProblemHandle status b = Except.error (FetchError.httpError status) ∧
    GetProblemHandle status b = GetProblemHandle status b' := by
  constructor
  · unfold GetProblemHandle
    rw [if_pos h]
  · unfold GetProblemHandle
    rw [if_pos h, if_pos h]

/-- C6 witness: status 404 with some body yields the failure carrying 404. -/
theorem c6_non200_carries_status_witness :
    GetProblemHandle 404 (FileContent.json (Json.obj [("message", Json.str "x")])) =
      Except.error (FetchError.httpError 404) :=
  (c6_non200_carries_status 404 (FileContent.json (Json.obj [("message", Json.str "x")]))
    FileContent.malformed (by decide)).1

/-- Helper: a mapped setter that never touches the title keeps the title. -/
theorem map_set_keepTitle {α : Type} (set : α → Problem → Problem)
    (hset : ∀ a p, (set a p).Title = p.Title) (o : Option α) (f : Problem → Problem)
    (hf : Option.map set o = some f) (p : Problem) : (f p).Title = p.Title := by
  cases o with
  | none => exact Option.noConfusion hf
  | some a =>
    injection hf with h
    subst h
    exact hset a p

/-- Helper: updStr with a title-preserving setter keeps the title. -/
theorem updStr_keepTitle (v : Json) (set : String → Problem → Problem)
    (hset : ∀ s p, (set s p).Title = p.Title) (f : Problem → Problem)
    (hf : updStr v set = some f) (p : Problem) : (f p).Title = p.Title := by
  unfold updStr at hf
  cases v <;> first
    | (injection hf with h; subst h; first | rfl | exact hset _ p)
    | exact Option.noConfusion hf

/-- Helper: updInt with a title-preserving setter keeps the title. -/
theorem updInt_keepTitle (v : Json) (set : Int → Problem → Problem)
    (hset : ∀ n p, (set n p).Title = p.Title) (f : Problem → Problem)
    (hf : updInt v set = some f) (p : Problem) : (f p).Title = p.Title := by
  unfold updInt at hf
  cases v <;> first
    | (injection hf with h; subst h; first | rfl | exact hset _ p)
    | exact Option.noConfusion hf

/-- Helper: updBool with a title-preserving setter keeps the title. -/
theorem updBool_keepTitle (v : Json) (set : Bool → Problem → Problem)
    (hset : ∀ b p, (set b p).Title = p.Title) (f : Problem → Problem)
    (hf : updBool v set = some f) (p : Problem) : (f p).Title = p.Title := by
  unfold updBool at hf
  cases v <;> first
    | (injection hf with h; subst h; first | rfl | exact hset _ p)
    | exact Option.noConfusion hf

/-- Helper: updList with a title-preserving setter keeps the title. -/
theorem updList_keepTitle {α : Type} (d : Json → Option α) (v : Json)
    (set : List α → Problem → Problem)
    (hset : ∀ xs p, (set xs p).Title = p.Title) (f : Problem → Problem)
    (hf : updList d v set = some f) (p : Problem) : (f p).Title = p.Title := by
  unfold updList at hf
  cases v with
  | null =>
    injection hf with h
    subst h
    exact hset [] p
  | arr xs => exact map_set_keepTitle set hset (xs.mapM d) f hf p
  | bool b => exact Option.noConfusion hf
  | num n => exact Option.noConfusion hf
  | str s => exact Option.noConfusion hf
  | obj kvs => exact Option.noConfusion hf

/-- Helper: updObj with a title-preserving setter keeps the title. -/
theorem updObj_keepTitle {α : Type} (d : Json → Option α) (v : Json)
    (set : α → Problem → Problem)
    (hset : ∀ a p, (set a p).Title = p.Title) (f : Problem → Problem)
    (hf : updObj d v set = some f) (p : Problem) : (f p).Title = p.Title := by
  unfold updObj at hf
  cases v with
  | null =>
    injection hf with h
    subst h
    rfl
  | bool b => exact map_set_keepTitle set hset _ f hf p
  | num n => exact map_set_keepTitle set hset _ f hf p
  | str s => exact map_set_keepTitle set hset _ f hf p
  | arr xs => exact map_set_keepTitle set hset _ f hf p
  | obj kvs => exact map_set_keepTitle set hset _ f hf p

/-- Helper: a key other than title never changes the Title component. -/
theorem decodeProblemField_keepTitle (k : String) (v : Json) (f : Problem → Problem)
    (hf : decodeProblemField k v = some f) (hk : k ≠ "title") (p : Problem) :
    (f p).Title = p.Title := by
  unfold decodeProblemField at hf
  by_cases h1 : k = "id"
  · rw [if_pos h1] at hf
    refine updStr_keepTitle _ _ ?_ f hf p
    intro a q
    rfl
  rw [if_neg h1, if_neg hk] at hf
  by_cases h3 : k = "description"
  · rw [if_pos h3] at hf
    refine updStr_keepTitle _ _ ?_ f hf p
    intro a q
    rfl
  rw [if_neg h3] at hf
  by_cases h4 : k = "difficulty"
  · rw [if_pos h4] at hf
    refine updStr_keepTitle _ _ ?_ f hf p
    intro a q
    rfl
  rw [if_neg h4] at hf
  by_cases h5 : k = "memoryLimit"
  · rw [if_pos h5] at hf
    refine updInt_keepTitle _ _ ?_ f hf p
    intro a q
    rfl
  rw [if_neg h5] at hf
  by_cases h6 : k = "timeLimit"
  · rw [if_pos h6] at hf
    refine updInt_keepTitle _ _ ?_ f hf p
    intro a q
    rfl
  rw [if_neg h6] at hf
  by_cases h7 : k = "notes"
  · rw [if_pos h7] at hf
    refine updStr_keepTitle _ _ ?_ f hf p
    intro a q
    rfl
  rw [if_neg h7] at hf
  by_cases h8 : k = "tags"
  · rw [if_pos h8] at hf
    refine updList_keepTitle _ _ _ ?_ f hf p
    intro a q
    rfl
  rw [if_neg h8] at hf
  by_cases h9 : k = "allowedLanguages"
  · rw [if_pos h9] at hf
    refine updList_keepTitle _ _ _ ?_ f hf p
    intro a q
    rfl
  rw [if_neg h9] at hf
  by_cases h10 : k = "author"
  · rw [if_pos h10] at hf
    refine updObj_keepTitle _ _ _ ?_ f hf p
    intro a q
    rfl
  rw [if_neg h10] at hf
  by_cases h11 : k = "testCases"
  · rw [if_pos h11] at hf
    refine updList_keepTitle _ _ _ ?_ f hf p
    intro a q
    rfl
  rw [if_neg h11] at hf
  by_cases h12 : k = "ProblemSection"
  · rw [if_pos h12] at hf
    refine updList_keepTitle _ _ _ ?_ f hf p
    intro a q
    rfl
  rw [if_neg h12] at hf
  by_cases h13 : k = "allowSubmit"
  · rw [if_pos h13] at hf
    refine updBool_keepTitle _ _ ?_ f hf p
    intro a q
    rfl
  rw [if_neg h13] at hf
  injection hf with h
  subst h
  rfl

/-- Keys of api.Problem as they appear in its JSON tags. -/
def problemKeys : List String :=
  ["id", "title", "description", "difficulty", "memoryLimit", "timeLimit", "notes",
   "tags", "allowedLanguages", "author", "testCases", "ProblemSection", "allowSubmit"]

/-- C7: a 200 body that is a JSON object whose present keys all decode parses
into a problem record; an absent title leaves the title empty rather than
failing, and a key outside the known tags always decodes (as a no-op), so
unknown fields never cause an error. -/
theorem c7_lenient_problem_parse (kvs : List (String × Json))
    (h : ∀ kv ∈ kvs, (decodeProblemField kv.1 kv.2).isSome = true) :
    (∃ p, GetProblemHandle 200 (FileContent.json (Json.obj kvs)) = Except.ok p ∧
      ("title" ∉ kvs.map Prod.fst → p.Title = "")) ∧
    (∀ k v, k ∉ problemKeys → decodeProblemField k v = some id) := by
  constructor
  · obtain ⟨p, hp, ht⟩ := decodeFieldsWith_ok decodeProblemField Problem.Title "title"
      decodeProblemField_keepTitle kvs h zeroProblem
    refine ⟨p, ?_, ht⟩
    unfold GetProblemHandle
    rw [if_neg (by decide)]
    simp [decodeProblem, hp]
  · intro k v hk
    simp only [problemKeys, List.mem_cons, List.not_mem_nil, or_false, not_or] at hk
    obtain ⟨h1, h2, h3, h4, h5, h6, h7, h8, h9, h10, h11, h12, h13⟩ := hk
    unfold decodeProblemField
    rw [if_neg h1, if_neg h2, if_neg h3, if_neg h4, if_neg h5, if_neg h6, if_neg h7,
      if_neg h8, if_neg h9, if_neg h10, if_neg h11, if_neg h12, if_neg h13]

/-- C7 witness: a body with only a description field parses, with empty
title. -/
theorem c7_lenient_problem_parse_witness :
    (∃ p, GetProblemHandle 200
          (FileContent.json (Json.obj [("description", Json.str "d")])) =
        Except.ok p ∧
      ("title" ∉ ([("description", Json.str "d")] : List (String × Json)).map Prod.fst →
        p.Title = "")) ∧
    (∀ k v, k ∉ problemKeys → decodeProblemField k v = some id) :=
  c7_lenient_problem_parse [("description", Json.str "d")] (by decide)

/-- Observable steps of one command invocation, in order: the credential
load, reading standard input (with the code obtained), issuing a network
request, aborting with a logged error, or completing. -/
inductive CmdEvent where
  | loadAttempt
  | readStdinEv (code : String)
  | networkCall (r : HttpRequest)
  | abort
  | success
  deriving Repr, DecidableEq

/-- Whether an event is a network call. -/
def CmdEvent.isNetwork : CmdEvent → Bool
  | CmdEvent.networkCall _ => true
  | _ => false

/-- showProblemCmd.Run (cmd/show_problem.go lines 21-47), up to the problem
fetch: load credentials, aborting on failure, then unconditionally build the
authenticated client from the loaded record and issue the fetch request.
The markdown rendering of the fetched problem is display-only and outside
the model. -/
def showProblem_run (problemID : String) (loadRes : Except LoadError Credentials) :
    List CmdEvent :=
  CmdEvent.loadAttempt ::
    match loadRes with
    | Except.error _ => [CmdEvent.abort]
    | Except.ok creds =>
      [CmdEvent.networkCall
          (GetProblemRequest (NewClientWithCredentials creds.Token creds.TokenId) problemID),
        CmdEvent.success]

/-- Stdin read loop of submitCmd.Run (cmd/submit.go lines 81-90). The bufio
reader hands back one newline-terminated line per ReadString call; line is
the partial line consumed so far, builder the code accumulated from complete
lines. At end of input ReadString returns the pending partial line together
with the error, and the loop breaks before appending it, so a final line not
terminated by a newline is dropped. -/
def readLoopAux (builder line : List Char) : List Char → List Char
  | [] => builder
  | c :: cs =>
    if c = '\n' then readLoopAux (builder ++ line ++ [c]) [] cs
    else readLoopAux builder (line ++ [c]) cs

/-- Code obtained by submitCmd.Run when reading from standard input. -/
def stdinCode (stdin : String) : String :=
  String.mk (readLoopAux [] [] stdin.data)

/-- submitCmd.Run (cmd/submit.go lines 28-127) on the standard-input path
(no input file flag): read standard input to completion, default the
language to cpp20 when no flag was given, abort if the code obtained is
empty, then load credentials (aborting on failure) and unconditionally build
the authenticated client from the loaded record and issue the submit
request. -/
def submit_run (stdin languageFlag problemID : String)
    (loadRes : Except LoadError Credentials) : List CmdEvent :=
  let code := stdinCode stdin
  let language := if languageFlag = "" then "cpp20" else languageFlag
  CmdEvent.readStdinEv code ::
    if code = "" then [CmdEvent.abort]
    else
      CmdEvent.loadAttempt ::
        match loadRes with
        | Except.error _ => [CmdEvent.abort]
        | Except.ok creds =>
          [CmdEvent.networkCall
              (SubmitCodeRequest (NewClientWithCredentials creds.Token creds.TokenId)
                code language problemID),
            CmdEvent.success]

/-- C3 counterexample: with a stored record whose two fields are both empty,
both show-problem and submit still issue their network request instead of
rejecting the record before any network call. -/
theorem c3_counterexample :
    (showProblem_run "I001" (Except.ok ⟨"", ""⟩)).any CmdEvent.isNetwork = true ∧
    (submit_run "x\n" "" "I001" (Except.ok ⟨"", ""⟩)).any CmdEvent.isNetwork = true :=
  ⟨rfl, rfl⟩

/-- C3 (amended): neither command validates the loaded record: for every
loaded record, including one with an empty field, show-problem issues its
fetch request, and submit (once stdin supplied non-empty code) issues its
submit request, in both cases carrying the record fields verbatim as the two
session cookies. -/
theorem c3_amended_no_validation (creds : Credentials)
    (problemID stdin languageFlag : String) (hcode : stdinCode stdin ≠ "") :
    (∃ r, CmdEvent.networkCall r ∈ showProblem_run problemID (Except.ok creds) ∧
      r.cookies = [("Token", creds.Token), ("TokenId", creds.TokenId)]) ∧
    (∃ r, CmdEvent.networkCall r ∈ submit_run stdin languageFlag problemID (Except.ok creds) ∧
      r.cookies = [("Token", creds.Token), ("TokenId", creds.TokenId)]) := by
  constructor
  · refine ⟨GetProblemRequest (NewClientWithCredentials creds.Token creds.TokenId)
        problemID, ?_, rfl⟩
    simp [showProblem_run]
  · refine ⟨SubmitCodeRequest (NewClientWithCredentials creds.Token creds.TokenId)
        (stdinCode stdin) (if languageFlag = "" then "cpp20" else languageFlag)
        problemID, ?_, rfl⟩
    simp [submit_run, hcode]

/-- C3 amended witness: the all-empty record is still sent to the network by
both commands. -/
theorem c3_amended_no_validation_witness :
    (∃ r, CmdEvent.networkCall r ∈ showProblem_run "I001" (Except.ok ⟨"", ""⟩) ∧
      r.cookies = [("Token", ""), ("TokenId", "")]) ∧
    (∃ r, CmdEvent.networkCall r ∈ submit_run "x\n" "" "I001" (Except.ok ⟨"", ""⟩) ∧
      r.cookies = [("Token", ""), ("TokenId", "")]) :=
  c3_amended_no_validation ⟨"", ""⟩ "I001" "x\n" "" (by decide)

/-- C9 (code-bug evidence): the loop drops a final line of standard input not
terminated by a newline, so the code submitted is not the complete stream
contents: on stdin abc nothing is read and the command aborts without
submitting, and on stdin a-newline-bc only the first line survives. -/
theorem c9_stdin_truncation :
    stdinCode "abc" = "" ∧
    submit_run "abc" "" "I001" (Except.ok ⟨"t", "i"⟩) =
      [CmdEvent.readStdinEv "", CmdEvent.abort] ∧
    stdinCode "a\nbc" = "a\n" :=
  ⟨rfl, rfl, rfl⟩

end Syoj
